import Mathlib

/-!
Verification of the geodetic-utility and point-source rupture components of the
eq_GPM repository, against its natural-language specification.

The spherical-geometry utilities of `src/nhe/geo/_utils.py` are embedded over ℚ
(the Python code performs only field arithmetic and comparisons on these paths),
so every definition is computable and concrete cases can be settled by `decide`.
The planar-surface builder and rupture enumerator of
`src/openquake/hazardlib/source/point.py` are embedded over ℝ, with the external
geodetic stepping primitive `point_at` taken as a function parameter.
-/

namespace EqGPM

/-! ## `nhe.geo._utils.get_longitudinal_extent` (src/nhe/geo/_utils.py:75-108) -/

/-- Embedding of `get_longitudinal_extent`: the signed angular distance from
`lon1` to `lon2`, the raw difference adjusted by 360 when it leaves
`[-180, 180]`. -/
def get_longitudinal_extent (lon1 lon2 : ℚ) : ℚ :=
  let extent := lon2 - lon1
  if extent > 180 then -360 + extent
  else if extent < -180 then 360 + extent
  else extent

/-- Helper: with both longitudes in `(-180, 180]` the extent lies in
`[-180, 180]`. (`-180` is attained, e.g. at `(180, 0)`.) -/
theorem extent_mem_range {lon1 lon2 : ℚ} (h1 : -180 < lon1) (h2 : lon1 ≤ 180)
    (h3 : -180 < lon2) (h4 : lon2 ≤ 180) :
    -180 ≤ get_longitudinal_extent lon1 lon2 ∧ get_longitudinal_extent lon1 lon2 ≤ 180 := by
  simp only [get_longitudinal_extent]
  split_ifs with ha hb
  · constructor <;> linarith
  · constructor <;> linarith
  · constructor <;> linarith

/-- Helper: the extent function is antisymmetric in its arguments, for all
rational inputs (including the `±180` boundary). -/
theorem extent_antisymm (lon1 lon2 : ℚ) :
    get_longitudinal_extent lon1 lon2 = -get_longitudinal_extent lon2 lon1 := by
  simp only [get_longitudinal_extent]
  split_ifs <;> linarith

/-- Helper: the extent is the raw difference adjusted by `±360` at most once. -/
theorem extent_eq_diff_adjusted (lon1 lon2 : ℚ) :
    get_longitudinal_extent lon1 lon2 = lon2 - lon1 ∨
    get_longitudinal_extent lon1 lon2 = lon2 - lon1 - 360 ∨
    get_longitudinal_extent lon1 lon2 = lon2 - lon1 + 360 := by
  simp only [get_longitudinal_extent]
  split_ifs with ha hb
  · right; left; ring
  · right; right; ring
  · left; rfl

/-- C6 counterexample: at `lon1 = 180`, `lon2 = 0` (both in `(-180, 180]`) the
code returns exactly `-180`, which is outside the claimed interval
`(-180, 180]`; for the same reason the result is not `lon2 - lon1` normalized
into `(-180, 180]`. -/
theorem get_longitudinal_extent_claim_false :
    (-180 < (180 : ℚ) ∧ (180 : ℚ) ≤ 180) ∧ (-180 < (0 : ℚ) ∧ (0 : ℚ) ≤ 180) ∧
    get_longitudinal_extent 180 0 = -180 ∧
    ¬(-180 < get_longitudinal_extent 180 0 ∧ get_longitudinal_extent 180 0 ≤ 180) := by
  refine ⟨⟨by norm_num, le_refl _⟩, ⟨by norm_num, by norm_num⟩, ?_, ?_⟩
  · norm_num [get_longitudinal_extent]
  · norm_num [get_longitudinal_extent]

/-- C6 (amended): for all `lon1, lon2 ∈ (-180, 180]` the value of
`get_longitudinal_extent` lies in the closed interval `[-180, 180]` (the left
endpoint `-180` is attained when `lon1 - lon2 = 180`); antisymmetry
`extent(lon1, lon2) = -extent(lon2, lon1)` holds for all inputs, the `±180`
boundary included; and the value equals `lon2 - lon1` adjusted by adding or
subtracting 360 at most once. -/
theorem get_longitudinal_extent_amended (lon1 lon2 : ℚ)
    (h1 : -180 < lon1) (h2 : lon1 ≤ 180) (h3 : -180 < lon2) (h4 : lon2 ≤ 180) :
    (-180 ≤ get_longitudinal_extent lon1 lon2 ∧ get_longitudinal_extent lon1 lon2 ≤ 180) ∧
    get_longitudinal_extent lon1 lon2 = -get_longitudinal_extent lon2 lon1 ∧
    (get_longitudinal_extent lon1 lon2 = lon2 - lon1 ∨
     get_longitudinal_extent lon1 lon2 = lon2 - lon1 - 360 ∨
     get_longitudinal_extent lon1 lon2 = lon2 - lon1 + 360) :=
  ⟨extent_mem_range h1 h2 h3 h4, extent_antisymm lon1 lon2, extent_eq_diff_adjusted lon1 lon2⟩

/-- Witness for the amended C6 theorem at `lon1 = -178.3`, `lon2 = 177.7`
(the doctest pair, whose extent is `-4`). -/
theorem get_longitudinal_extent_amended_witness :
    (-180 < (-1783 / 10 : ℚ) ∧ (-1783 / 10 : ℚ) ≤ 180) ∧
    (-180 < (1777 / 10 : ℚ) ∧ (1777 / 10 : ℚ) ≤ 180) ∧
    ((-180 ≤ get_longitudinal_extent (-1783 / 10) (1777 / 10) ∧
      get_longitudinal_extent (-1783 / 10) (1777 / 10) ≤ 180) ∧
     get_longitudinal_extent (-1783 / 10) (1777 / 10) =
       -get_longitudinal_extent (1777 / 10) (-1783 / 10) ∧
     (get_longitudinal_extent (-1783 / 10) (1777 / 10) = 1777 / 10 - (-1783 / 10) ∨
      get_longitudinal_extent (-1783 / 10) (1777 / 10) = 1777 / 10 - (-1783 / 10) - 360 ∨
      get_longitudinal_extent (-1783 / 10) (1777 / 10) = 1777 / 10 - (-1783 / 10) + 360)) :=
  ⟨⟨by norm_num, by norm_num⟩, ⟨by norm_num, by norm_num⟩,
   get_longitudinal_extent_amended (-1783 / 10) (1777 / 10)
     (by norm_num) (by norm_num) (by norm_num) (by norm_num)⟩

/-! ## `nhe.geo._utils.get_spherical_bounding_box` (src/nhe/geo/_utils.py:111-159) -/

/-- The `RuntimeError` message raised by `get_spherical_bounding_box`. -/
def longExtentError : String := "points collection has longitudinal extent wider than 180 deg"

/-- Error marker for Python `ValueError` on `min`/`max` of an empty sequence
(`numpy.min`/`numpy.max` of an empty array behaves likewise). -/
def emptySequenceError : String := "ValueError"

/-- Error marker for the Python `assert` statement at src/nhe/geo/_utils.py:147. -/
def assertionError : String := "AssertionError"

/-- Embedding of `get_spherical_bounding_box`.  `north, south` are max/min of
the latitudes and `west, east` min/max of the longitudes; when the signed
extent from the naive west to the naive east is negative, west is recomputed
as the lowest positive longitude and east as the highest negative one, and
every longitude must lie inside the `[west, east]` arc, otherwise the
`RuntimeError` is raised. -/
def get_spherical_bounding_box (lons lats : List ℚ) : Except String (ℚ × ℚ × ℚ × ℚ) :=
  match lats.max?, lats.min?, lons.min?, lons.max? with
  | some north, some south, some west, some east =>
    if (-180 < west ∧ west ≤ 180) ∧ (-180 < east ∧ east ≤ 180) then
      if get_longitudinal_extent west east < 0 then
        match (lons.filter fun lon => decide (0 < lon)).min?,
              (lons.filter fun lon => decide (lon < 0)).max? with
        | some west2, some east2 =>
          if ∀ lon ∈ lons, 0 ≤ get_longitudinal_extent west2 lon ∧
              0 ≤ get_longitudinal_extent lon east2 then
            Except.ok (west2, east2, north, south)
          else Except.error longExtentError
        | _, _ => Except.error emptySequenceError
      else Except.ok (west, east, north, south)
    else Except.error assertionError
  | _, _, _, _ => Except.error emptySequenceError

/-- Helper: characterization of `List.min?` for rationals. -/
theorem rat_min?_eq_some {xs : List ℚ} {a : ℚ} :
    xs.min? = some a ↔ a ∈ xs ∧ ∀ b ∈ xs, a ≤ b := by
  haveI : Std.Antisymm ((· : ℚ) ≤ ·) := ⟨fun h1 h2 => le_antisymm h1 h2⟩
  exact List.min?_eq_some_iff (fun _ => le_refl _) (fun a b => min_choice a b)
    (fun _ _ _ => le_min_iff)

/-- Helper: characterization of `List.max?` for rationals. -/
theorem rat_max?_eq_some {xs : List ℚ} {a : ℚ} :
    xs.max? = some a ↔ a ∈ xs ∧ ∀ b ∈ xs, b ≤ a := by
  haveI : Std.Antisymm ((· : ℚ) ≤ ·) := ⟨fun h1 h2 => le_antisymm h1 h2⟩
  exact List.max?_eq_some_iff (fun _ => le_refl _) (fun a b => max_choice a b)
    (fun _ _ _ => max_le_iff)

/-- Helper: a nonempty list of rationals has a minimum. -/
theorem min?_some_of_ne_nil {l : List ℚ} (h : l ≠ []) : ∃ a, l.min? = some a := by
  cases hm : l.min? with
  | none => exact absurd (List.min?_eq_none_iff.1 hm) h
  | some a => exact ⟨a, rfl⟩

/-- Helper: a nonempty list of rationals has a maximum. -/
theorem max?_some_of_ne_nil {l : List ℚ} (h : l ≠ []) : ∃ a, l.max? = some a := by
  cases hm : l.max? with
  | none => exact absurd (List.max?_eq_none_iff.1 hm) h
  | some a => exact ⟨a, rfl⟩

/-- The spanning condition of claim C4, in the claim's own words: after the
antimeridian recomputation (west = lowest positive longitude, east = highest
negative one) some point's longitude lies outside the `[west, east]` arc —
and that recomputation is triggered because the naive west/east pair has
negative signed extent. -/
def spansMoreThan180 (lons : List ℚ) : Prop :=
  get_longitudinal_extent (lons.min?.getD 0) (lons.max?.getD 0) < 0 ∧
  ∃ lon ∈ lons,
    get_longitudinal_extent ((lons.filter fun l => decide (0 < l)).min?.getD 0) lon < 0 ∨
    get_longitudinal_extent lon ((lons.filter fun l => decide (l < 0)).max?.getD 0) < 0

/-- C4: for a nonempty collection with all longitudes in `(-180, 180]`,
`get_spherical_bounding_box` fails with the `RuntimeError` exactly when the
collection spans more than 180 degrees of longitude (some longitude falls
outside the recomputed `[west, east]` arc); otherwise it returns normally.
In particular `get_spherical_bounding_box [-45,-135,135,45] [80,80,80,80]`
raises this error. -/
theorem spherical_bounding_box_error_iff (lons lats : List ℚ)
    (hlons : lons ≠ []) (hlats : lats ≠ [])
    (hb : ∀ lon ∈ lons, -180 < lon ∧ lon ≤ 180) :
    (get_spherical_bounding_box lons lats = Except.error longExtentError ↔
      spansMoreThan180 lons) ∧
    ((∃ box, get_spherical_bounding_box lons lats = Except.ok box) ↔
      ¬spansMoreThan180 lons) ∧
    get_spherical_bounding_box [-45, -135, 135, 45] [80, 80, 80, 80] =
      Except.error longExtentError := by
  obtain ⟨north, hnorth⟩ := max?_some_of_ne_nil hlats
  obtain ⟨south, hsouth⟩ := min?_some_of_ne_nil hlats
  obtain ⟨west, hwest⟩ := min?_some_of_ne_nil hlons
  obtain ⟨east, heast⟩ := max?_some_of_ne_nil hlons
  obtain ⟨hwest_mem, hwest_le⟩ := rat_min?_eq_some.1 hwest
  obtain ⟨heast_mem, heast_ge⟩ := rat_max?_eq_some.1 heast
  have hassert : (-180 < west ∧ west ≤ 180) ∧ (-180 < east ∧ east ≤ 180) :=
    ⟨hb west hwest_mem, hb east heast_mem⟩
  have hconc : get_spherical_bounding_box [-45, -135, 135, 45] [80, 80, 80, 80] =
      Except.error longExtentError := by
    simp only [get_spherical_bounding_box, List.max?, List.min?, List.foldl, List.filter,
      get_longitudinal_extent]
    norm_num [List.forall_mem_cons]
  have key : (get_spherical_bounding_box lons lats = Except.error longExtentError ↔
      spansMoreThan180 lons) ∧
      ((∃ box, get_spherical_bounding_box lons lats = Except.ok box) ↔
        ¬spansMoreThan180 lons) := by
    simp only [get_spherical_bounding_box, hnorth, hsouth, hwest, heast]
    rw [if_pos hassert]
    by_cases hext : get_longitudinal_extent west east < 0
    case neg =>
      rw [if_neg hext]
      have hnspans : ¬spansMoreThan180 lons := by
        intro hsp
        rw [spansMoreThan180, hwest, heast, Option.getD_some, Option.getD_some] at hsp
        exact hext hsp.1
      exact ⟨iff_of_false (by simp) hnspans, iff_of_true ⟨_, rfl⟩ hnspans⟩
    case pos =>
      rw [if_pos hext]
      -- the collection straddles the antimeridian: east > 0 > west
      have hwe : west ≤ east := hwest_le east heast_mem
      have heast_pos : 0 < east := by
        simp only [get_longitudinal_extent] at hext
        split_ifs at hext with h1 h2 <;> linarith [hassert.1.1, hassert.2.2]
      have hwest_neg : west < 0 := by
        simp only [get_longitudinal_extent] at hext
        split_ifs at hext with h1 h2 <;> linarith [hassert.1.1, hassert.2.2]
      have hpos_ne : lons.filter (fun l => decide (0 < l)) ≠ [] :=
        List.ne_nil_of_mem (List.mem_filter.2 ⟨heast_mem, by simpa using heast_pos⟩)
      have hneg_ne : lons.filter (fun l => decide (l < 0)) ≠ [] :=
        List.ne_nil_of_mem (List.mem_filter.2 ⟨hwest_mem, by simpa using hwest_neg⟩)
      obtain ⟨west2, hwest2⟩ := min?_some_of_ne_nil hpos_ne
      obtain ⟨east2, heast2⟩ := max?_some_of_ne_nil hneg_ne
      simp only [hwest2, heast2]
      by_cases hall : ∀ lon ∈ lons, 0 ≤ get_longitudinal_extent west2 lon ∧
          0 ≤ get_longitudinal_extent lon east2
      case pos =>
        rw [if_pos hall]
        have hnspans : ¬spansMoreThan180 lons := by
          intro hsp
          rw [spansMoreThan180, hwest, heast, hwest2, heast2] at hsp
          simp only [Option.getD_some] at hsp
          obtain ⟨_, lon, hlon, hviol⟩ := hsp
          rcases hviol with hv | hv
          · exact absurd (hall lon hlon).1 (not_le.2 hv)
          · exact absurd (hall lon hlon).2 (not_le.2 hv)
        exact ⟨iff_of_false (by simp) hnspans, iff_of_true ⟨_, rfl⟩ hnspans⟩
      case neg =>
        rw [if_neg hall]
        have hspans : spansMoreThan180 lons := by
          rw [spansMoreThan180, hwest, heast, hwest2, heast2]
          simp only [Option.getD_some]
          push_neg at hall
          obtain ⟨lon, hlon, hviol⟩ := hall
          refine ⟨hext, lon, hlon, ?_⟩
          by_cases hv1 : 0 ≤ get_longitudinal_extent west2 lon
          · exact Or.inr (hviol hv1)
          · exact Or.inl (not_le.1 hv1)
        exact ⟨iff_of_true rfl hspans,
          iff_of_false (by simp) (fun hn => hn hspans)⟩
  exact ⟨key.1, key.2, hconc⟩

/-- Witness for C4 at the antimeridian doctest input
`lons = [-20, 180, 179, 178]`, `lats = [-1, -2, 1, 2]` (which does not span
more than 180 degrees and hence returns normally). -/
theorem spherical_bounding_box_error_iff_witness :
    ((∃ box, get_spherical_bounding_box [-20, 180, 179, 178] [-1, -2, 1, 2] = Except.ok box) ↔
      ¬spansMoreThan180 [-20, 180, 179, 178]) ∧
    get_spherical_bounding_box [-45, -135, 135, 45] [80, 80, 80, 80] =
      Except.error longExtentError :=
  ⟨(spherical_bounding_box_error_iff [-20, 180, 179, 178] [-1, -2, 1, 2]
      (by simp) (by simp) (by norm_num [List.forall_mem_cons])).2.1,
   (spherical_bounding_box_error_iff [-20, 180, 179, 178] [-1, -2, 1, 2]
      (by simp) (by simp) (by norm_num [List.forall_mem_cons])).2.2⟩

/-- C5: every tuple `(west, east, north, south)` returned without raising
satisfies the BoundingBox invariant — `west, east ∈ (-180, 180]`, the signed
extent from west to east lies in `[0, 180]`, north is the maximum latitude and
south the minimum — together with the two concrete examples
`get_spherical_bounding_box [10,-10] [50,60] = (-10, 10, 60, 50)` and the
antimeridian case
`get_spherical_bounding_box [-20,180,179,178] [-1,-2,1,2] = (178, -20, 2, -2)`. -/
theorem spherical_bounding_box_invariant :
    (∀ (lons lats : List ℚ) (w e n s : ℚ),
      (∀ lon ∈ lons, -180 < lon ∧ lon ≤ 180) →
      get_spherical_bounding_box lons lats = Except.ok (w, e, n, s) →
      ((-180 < w ∧ w ≤ 180) ∧ (-180 < e ∧ e ≤ 180) ∧
       0 ≤ get_longitudinal_extent w e ∧ get_longitudinal_extent w e ≤ 180 ∧
       n ∈ lats ∧ (∀ la ∈ lats, la ≤ n) ∧ s ∈ lats ∧ (∀ la ∈ lats, s ≤ la))) ∧
    get_spherical_bounding_box [10, -10] [50, 60] = Except.ok (-10, 10, 60, 50) ∧
    get_spherical_bounding_box [-20, 180, 179, 178] [-1, -2, 1, 2] =
      Except.ok (178, -20, 2, -2) := by
  refine ⟨?_, ?_, ?_⟩
  · intro lons lats w e n s hb hok
    cases hnorth : lats.max? with
    | none => simp [get_spherical_bounding_box, hnorth] at hok
    | some north =>
    cases hsouth : lats.min? with
    | none => simp [get_spherical_bounding_box, hnorth, hsouth] at hok
    | some south =>
    cases hwest : lons.min? with
    | none => simp [get_spherical_bounding_box, hnorth, hsouth, hwest] at hok
    | some west =>
    cases heast : lons.max? with
    | none => simp [get_spherical_bounding_box, hnorth, hsouth, hwest, heast] at hok
    | some east =>
    obtain ⟨hwest_mem, hwest_le⟩ := rat_min?_eq_some.1 hwest
    obtain ⟨heast_mem, heast_ge⟩ := rat_max?_eq_some.1 heast
    obtain ⟨hnorth_mem, hnorth_ge⟩ := rat_max?_eq_some.1 hnorth
    obtain ⟨hsouth_mem, hsouth_le⟩ := rat_min?_eq_some.1 hsouth
    have hassert : (-180 < west ∧ west ≤ 180) ∧ (-180 < east ∧ east ≤ 180) :=
      ⟨hb west hwest_mem, hb east heast_mem⟩
    simp only [get_spherical_bounding_box, hnorth, hsouth, hwest, heast] at hok
    rw [if_pos hassert] at hok
    by_cases hext : get_longitudinal_extent west east < 0
    case neg =>
      rw [if_neg hext] at hok
      obtain ⟨hw, he, hn, hs⟩ : west = w ∧ east = e ∧ north = n ∧ south = s := by
        simp only [Except.ok.injEq, Prod.mk.injEq] at hok
        exact hok
      subst hw he hn hs
      have hle180 := (extent_mem_range hassert.1.1 hassert.1.2 hassert.2.1 hassert.2.2).2
      exact ⟨hassert.1, hassert.2, not_lt.1 hext, hle180,
        hnorth_mem, hnorth_ge, hsouth_mem, hsouth_le⟩
    case pos =>
      rw [if_pos hext] at hok
      cases hwest2 : (lons.filter fun l => decide (0 < l)).min? with
      | none => simp [hwest2] at hok
      | some west2 =>
      cases heast2 : (lons.filter fun l => decide (l < 0)).max? with
      | none => simp [hwest2, heast2] at hok
      | some east2 =>
      simp only [hwest2, heast2] at hok
      by_cases hall : ∀ lon ∈ lons, 0 ≤ get_longitudinal_extent west2 lon ∧
          0 ≤ get_longitudinal_extent lon east2
      case neg => rw [if_neg hall] at hok; exact absurd hok (by simp)
      case pos =>
      rw [if_pos hall] at hok
      obtain ⟨hw, he, hn, hs⟩ : west2 = w ∧ east2 = e ∧ north = n ∧ south = s := by
        simp only [Except.ok.injEq, Prod.mk.injEq] at hok
        exact hok
      subst hw he hn hs
      have hw_mem : west2 ∈ lons := (List.mem_filter.1 (rat_min?_eq_some.1 hwest2).1).1
      have he_mem : east2 ∈ lons := (List.mem_filter.1 (rat_max?_eq_some.1 heast2).1).1
      have hwe_ext : 0 ≤ get_longitudinal_extent west2 east2 := (hall east2 he_mem).1
      have hwb := hb west2 hw_mem
      have heb := hb east2 he_mem
      have hle180 := (extent_mem_range hwb.1 hwb.2 heb.1 heb.2).2
      exact ⟨hwb, heb, hwe_ext, hle180, hnorth_mem, hnorth_ge, hsouth_mem, hsouth_le⟩
  · simp only [get_spherical_bounding_box, List.max?, List.min?, List.foldl, List.filter,
      get_longitudinal_extent]
    norm_num
  · simp only [get_spherical_bounding_box, List.max?, List.min?, List.foldl, List.filter,
      get_longitudinal_extent]
    norm_num [List.forall_mem_cons]

/-- Witness for the general part of C5, instantiated at the first concrete
example. -/
theorem spherical_bounding_box_invariant_witness :
    (-180 < (-10 : ℚ) ∧ (-10 : ℚ) ≤ 180) ∧ ((-180 : ℚ) < 10 ∧ (10 : ℚ) ≤ 180) ∧
    0 ≤ get_longitudinal_extent (-10) 10 ∧ get_longitudinal_extent (-10) 10 ≤ 180 ∧
    (60 : ℚ) ∈ [(50 : ℚ), 60] ∧ (∀ la ∈ [(50 : ℚ), 60], la ≤ 60) ∧
    (50 : ℚ) ∈ [(50 : ℚ), 60] ∧ (∀ la ∈ [(50 : ℚ), 60], 50 ≤ la) :=
  spherical_bounding_box_invariant.1 [10, -10] [50, 60] (-10) 10 60 50
    (by norm_num [List.forall_mem_cons]) spherical_bounding_box_invariant.2.1

/-! ## `nhe.geo._utils.clean_points` (src/nhe/geo/_utils.py:14-34)

The `Point` class itself is not part of the sources; per the data model of the
spec (section 3), point equality is exact on all three fields, so points are
embedded as an arbitrary type with decidable (structural) equality. -/

/-- One iteration of the `clean_points` loop: append `point` unless it equals
the last retained point. -/
def clean_step {α : Type} [DecidableEq α] (result : List α) (point : α) : List α :=
  match result.getLast? with
  | some last => if point ≠ last then result ++ [point] else result
  | none => result ++ [point]

/-- Embedding of `clean_points`: start from the first point and fold the
remaining ones through `clean_step` (the Python loop runs over all points,
including the first, which never passes the inequality test on the first
iteration). -/
def clean_points {α : Type} [DecidableEq α] (points : List α) : List α :=
  match points with
  | [] => points
  | p :: _ => points.foldl clean_step [p]

/-- Spec-side recursion for C9: drop a point exactly when it equals the
immediately preceding retained point. -/
def dropAdjacentDup {α : Type} [DecidableEq α] (prev : α) : List α → List α
  | [] => []
  | q :: rest => if q = prev then dropAdjacentDup prev rest else q :: dropAdjacentDup q rest

/-- Spec-side statement of `cleanAdjacentDuplicates`: keep the first point,
then remove each subsequent point exactly when it equals the immediately
preceding retained point. -/
def cleanAdjacentDuplicates {α : Type} [DecidableEq α] : List α → List α
  | [] => []
  | p :: rest => p :: dropAdjacentDup p rest

/-- Helper: folding `clean_step` from an accumulator whose last element is
`prev` appends exactly the spec-side `dropAdjacentDup prev`. -/
theorem foldl_clean_step {α : Type} [DecidableEq α] (rest : List α) :
    ∀ (acc : List α) (prev : α), acc.getLast? = some prev →
      rest.foldl clean_step acc = acc ++ dropAdjacentDup prev rest := by
  induction rest with
  | nil => intro acc prev _; simp [dropAdjacentDup]
  | cons q rest ih =>
    intro acc prev hlast
    by_cases hq : q = prev
    · subst hq
      have hstep : clean_step acc q = acc := by
        simp [clean_step, hlast]
      simp only [List.foldl_cons, hstep, dropAdjacentDup, if_pos rfl]
      exact ih acc q hlast
    · have hstep : clean_step acc q = acc ++ [q] := by
        simp [clean_step, hlast, hq]
      have hlast2 : (acc ++ [q]).getLast? = some q := by
        simp
      simp only [List.foldl_cons, hstep, dropAdjacentDup, if_neg hq]
      rw [ih (acc ++ [q]) q hlast2, List.append_assoc]
      rfl

/-- C9: `clean_points` keeps the first point and removes each subsequent point
exactly when it equals the immediately preceding retained point (equality is
exact/decidable structural equality); the empty list maps to itself, and only
adjacent repeats collapse, so `[a,a,a,b,a,c,c]` maps to `[a,b,a,c]`. -/
theorem clean_points_spec :
    (∀ (α : Type) [DecidableEq α] (points : List α),
      clean_points points = cleanAdjacentDuplicates points) ∧
    (∀ (α : Type) [DecidableEq α] (a b c : α), a ≠ b → a ≠ c →
      clean_points [a, a, a, b, a, c, c] = [a, b, a, c]) := by
  have hmain : ∀ (α : Type) [DecidableEq α] (points : List α),
      clean_points points = cleanAdjacentDuplicates points := by
    intro α inst points
    cases points with
    | nil => rfl
    | cons p rest =>
      have hstep1 : clean_step [p] p = [p] := by
        simp [clean_step]
      calc (p :: rest).foldl clean_step [p]
          = rest.foldl clean_step [p] := by
            simp only [List.foldl_cons, hstep1]
        _ = [p] ++ dropAdjacentDup p rest := foldl_clean_step rest [p] p rfl
        _ = cleanAdjacentDuplicates (p :: rest) := rfl
  refine ⟨hmain, ?_⟩
  intro α inst a b c hab hac
  rw [hmain]
  have hba : b ≠ a := fun h => hab h.symm
  have hca : c ≠ a := fun h => hac h.symm
  simp [cleanAdjacentDuplicates, dropAdjacentDup, hab, hac, hba, hca]

/-- Witness for C9 on natural numbers with `a = 1`, `b = 2`, `c = 3`. -/
theorem clean_points_spec_witness :
    clean_points [1, 1, 1, 2, 1, 3, 3] = ([1, 2, 1, 3] : List ℕ) :=
  clean_points_spec.2 ℕ 1 2 3 (by decide) (by decide)

/-! ## `nhe.geo._utils.line_intersects_itself` (src/nhe/geo/_utils.py:37-72)

The stereographic projection (pyproj) and the planar simplicity test
(shapely `is_simple`) are external collaborators, taken as function
parameters `proj` (built from the bounding box, applied to the longitude and
latitude lists) and `simple` (the simplicity predicate on projected
coordinate pairs). -/

/-- `numpy.roll(l, 1)`: rotate a list one position to the right (the last
element becomes first). -/
def numpy_roll1 {α : Type} (l : List α) : List α :=
  l.drop (l.length - 1) ++ l.take (l.length - 1)

/-- Embedding of `line_intersects_itself`.  Fewer than 4 points returns
`False` immediately; otherwise the bounding box is computed (which may raise),
a projection is built from it, and the projected polyline — and, for
`closed_shape`, also its rotation by one — is tested for simplicity. -/
def line_intersects_itself (lons lats : List ℚ) (closed_shape : Bool)
    (proj : (ℚ × ℚ × ℚ × ℚ) → List ℚ → List ℚ → List (ℚ × ℚ))
    (simple : List (ℚ × ℚ) → Bool) : Except String Bool :=
  if lons.length = lats.length then
    if lons.length ≤ 3 then Except.ok false
    else
      match get_spherical_bounding_box lons lats with
      | Except.error e => Except.error e
      | Except.ok box =>
        if simple (proj box lons lats) = false then Except.ok true
        else if closed_shape then
          if simple (proj box (numpy_roll1 lons) (numpy_roll1 lats)) = false then Except.ok true
          else Except.ok false
        else Except.ok false
  else Except.error assertionError

/-- C10: `line_intersects_itself` is not total over geometrically valid
inputs.  With 3 or fewer points it returns `False` without reaching the
bounding box; with at least 4 points whose bounding box computation raises
(longitudes spanning more than 180 degrees), the `RuntimeError` escapes
instead of a boolean — whatever the external projection and simplicity test
do — and in particular it does so on `lons = [-45,-135,135,45]`,
`lats = [80,80,80,80]`. -/
theorem line_intersects_itself_not_total :
    (∀ (lons lats : List ℚ) (cs : Bool) proj simple,
      lons.length = lats.length → lons.length ≤ 3 →
      line_intersects_itself lons lats cs proj simple = Except.ok false) ∧
    (∀ (lons lats : List ℚ) (cs : Bool) proj simple (e : String),
      lons.length = lats.length → 3 < lons.length →
      get_spherical_bounding_box lons lats = Except.error e →
      line_intersects_itself lons lats cs proj simple = Except.error e) ∧
    (∀ (cs : Bool) proj simple,
      line_intersects_itself [-45, -135, 135, 45] [80, 80, 80, 80] cs proj simple =
        Except.error longExtentError) := by
  have herr : get_spherical_bounding_box [-45, -135, 135, 45] [80, 80, 80, 80] =
      Except.error longExtentError := by
    simp only [get_spherical_bounding_box, List.max?, List.min?, List.foldl, List.filter,
      get_longitudinal_extent]
    norm_num [List.forall_mem_cons]
  refine ⟨?_, ?_, ?_⟩
  · intro lons lats cs proj simple hlen hle
    rw [line_intersects_itself, if_pos hlen, if_pos hle]
  · intro lons lats cs proj simple e hlen hgt hbox
    rw [line_intersects_itself, if_pos hlen, if_neg (not_le.2 hgt), hbox]
  · intro cs proj simple
    rw [line_intersects_itself, if_pos (by simp), if_neg (by simp), herr]

/-- Witness for C10: the short-input branch at `lons = lats = [0]` and the
error branch at the concrete spanning input. -/
theorem line_intersects_itself_not_total_witness :
    line_intersects_itself [0] [0] false (fun _ _ _ => []) (fun _ => true) = Except.ok false ∧
    line_intersects_itself [-45, -135, 135, 45] [80, 80, 80, 80] true
      (fun _ _ _ => []) (fun _ => true) = Except.error longExtentError :=
  ⟨line_intersects_itself_not_total.1 [0] [0] false (fun _ _ _ => []) (fun _ => true)
      rfl (by simp),
   line_intersects_itself_not_total.2.2 true (fun _ _ _ => []) (fun _ => true)⟩

/-! ## `openquake.hazardlib.source.point.PointSource`
(src/openquake/hazardlib/source/point.py)

The geometry is embedded over ℝ.  The geodetic stepping primitive
`Point.point_at(horizontal_distance, vertical_increment, azimuth)` is an
external collaborator and is taken as a function parameter `pointAt`; the
magnitude-scaling relationship `get_median_area` is likewise a function
field.  `math.radians`, `math.sin`, `math.cos`, `math.tan`, `math.sqrt` and
the float modulo `% 360` are modelled by their exact real counterparts. -/

/-- A geographic point: longitude, latitude (degrees) and depth (km,
positive downward). -/
structure Point where
  longitude : ℝ
  latitude : ℝ
  depth : ℝ

/-- A nodal plane: strike, dip and rake angles in degrees. -/
structure NodalPlane where
  strike : ℝ
  dip : ℝ
  rake : ℝ

/-- The planar rupture surface, as constructed by
`PlanarSurface(mesh_spacing, strike, dip, left_top, right_top, right_bottom,
left_bottom)`. -/
structure PlanarSurface where
  mesh_spacing : ℝ
  strike : ℝ
  dip : ℝ
  top_left : Point
  top_right : Point
  bottom_right : Point
  bottom_left : Point

/-- The type of the external `point_at` primitive: origin, horizontal
distance, vertical increment, azimuth. -/
def PointAtFn : Type := Point → ℝ → ℝ → ℝ → Point

/-- The data of a `PointSource` used by the embedded methods.  The
magnitude-scaling relationship appears as its `get_median_area` method; the
nodal-plane and hypocenter-depth distributions as their ordered
`(probability, value)` pair lists. -/
structure PointSourceData where
  tectonic_region_type : String
  get_annual_occurrence_rates : List (ℝ × ℝ)
  rupture_mesh_spacing : ℝ
  get_median_area : ℝ → ℝ → ℝ
  rupture_aspect_ratio : ℝ
  upper_seismogenic_depth : ℝ
  lower_seismogenic_depth : ℝ
  location : Point
  nodal_plane_distribution : List (ℝ × NodalPlane)
  hypocenter_distribution : List (ℝ × ℝ)

/-- `math.radians`. -/
noncomputable def radians (x : ℝ) : ℝ := x * Real.pi / 180

/-- Python float modulo for a positive modulus, `x % y`. -/
noncomputable def fmod (x y : ℝ) : ℝ := x - y * ⌊x / y⌋

/-- Embedding of `PointSource._get_rupture_dimensions`
(src/openquake/hazardlib/source/point.py:199-235): decompose the median area
into length and width by the aspect ratio, then clip the width to the
seismogenic layer width measured along the dip, extending the length to
preserve the area. -/
noncomputable def _get_rupture_dimensions (src : PointSourceData) (mag : ℝ)
    (nodal_plane : NodalPlane) : ℝ × ℝ :=
  let area := src.get_median_area mag nodal_plane.rake
  let rup_length := Real.sqrt (area * src.rupture_aspect_ratio)
  let rup_width := area / rup_length
  let seismogenic_layer_width := src.lower_seismogenic_depth - src.upper_seismogenic_depth
  let max_width := seismogenic_layer_width / Real.sin (radians nodal_plane.dip)
  if rup_width > max_width then (area / max_width, max_width)
  else (rup_length, rup_width)

/-- Helper: the sine of a dip angle in `(0, 90]` degrees is positive. -/
theorem sin_radians_dip_pos {dip : ℝ} (h0 : 0 < dip) (h90 : dip ≤ 90) :
    0 < Real.sin (radians dip) := by
  have hpi := Real.pi_pos
  apply Real.sin_pos_of_pos_of_lt_pi
  · rw [radians]
    positivity
  · rw [radians]
    nlinarith

/-- Helper: facts about `_get_rupture_dimensions` under the source
preconditions — the product of the dimensions is the median area, both are
positive, and the width times the sine of the dip (the projected height of
the rupture) does not exceed the seismogenic layer width. -/
theorem rupture_dimensions_facts (src : PointSourceData) (mag : ℝ)
    (np : NodalPlane)
    (harea : 0 < src.get_median_area mag np.rake)
    (haspect : 0 < src.rupture_aspect_ratio)
    (hdip0 : 0 < np.dip) (hdip90 : np.dip ≤ 90)
    (hdepths : src.upper_seismogenic_depth < src.lower_seismogenic_depth) :
    (_get_rupture_dimensions src mag np).1 * (_get_rupture_dimensions src mag np).2 =
      src.get_median_area mag np.rake ∧
    0 < (_get_rupture_dimensions src mag np).2 ∧
    (_get_rupture_dimensions src mag np).2 * Real.sin (radians np.dip) ≤
      src.lower_seismogenic_depth - src.upper_seismogenic_depth ∧
    0 < (_get_rupture_dimensions src mag np).1 := by
  have hsin : 0 < Real.sin (radians np.dip) := sin_radians_dip_pos hdip0 hdip90
  set area := src.get_median_area mag np.rake with harea_def
  set slw := src.lower_seismogenic_depth - src.upper_seismogenic_depth with hslw_def
  have hslw : 0 < slw := by rw [hslw_def]; linarith
  have hsqrt : 0 < Real.sqrt (area * src.rupture_aspect_ratio) :=
    Real.sqrt_pos.2 (by positivity)
  have hmaxw : 0 < slw / Real.sin (radians np.dip) := by positivity
  simp only [_get_rupture_dimensions, ← harea_def, ← hslw_def]
  by_cases hclip : area / Real.sqrt (area * src.rupture_aspect_ratio) >
      slw / Real.sin (radians np.dip)
  · rw [if_pos hclip]
    refine ⟨?_, hmaxw, ?_, by positivity⟩
    · field_simp
    · rw [div_mul_cancel₀ _ (ne_of_gt hsin)]
  · rw [if_neg hclip]
    push_neg at hclip
    refine ⟨?_, by positivity, ?_, hsqrt⟩
    · field_simp
    · calc area / Real.sqrt (area * src.rupture_aspect_ratio) * Real.sin (radians np.dip)
          ≤ slw / Real.sin (radians np.dip) * Real.sin (radians np.dip) := by
            exact mul_le_mul_of_nonneg_right hclip (le_of_lt hsin)
        _ = slw := div_mul_cancel₀ _ (ne_of_gt hsin)

/-- C3: the dimensions returned by `_get_rupture_dimensions` multiply exactly
to the median area, whether or not the width was clipped to
`(lowerDepth - upperDepth) / sin(dip)` — over the exact real arithmetic of
this embedding. -/
theorem rupture_dimensions_preserve_area (src : PointSourceData) (mag : ℝ)
    (np : NodalPlane)
    (harea : 0 < src.get_median_area mag np.rake)
    (haspect : 0 < src.rupture_aspect_ratio)
    (hdip0 : 0 < np.dip) (hdip90 : np.dip ≤ 90)
    (hdepths : src.upper_seismogenic_depth < src.lower_seismogenic_depth) :
    (_get_rupture_dimensions src mag np).1 * (_get_rupture_dimensions src mag np).2 =
      src.get_median_area mag np.rake :=
  (rupture_dimensions_facts src mag np harea haspect hdip0 hdip90 hdepths).1

/-- A concrete point source used to instantiate witnesses: a unit-area
magnitude-scaling relationship, aspect ratio 1, seismogenic depths 0–10 km,
one nodal plane (strike 0, dip 90, rake 0) and one hypocenter depth 6 km. -/
noncomputable def witnessSource : PointSourceData where
  tectonic_region_type := "Active Shallow Crust"
  get_annual_occurrence_rates := [(5, 1/2)]
  rupture_mesh_spacing := 1
  get_median_area := fun _ _ => 2
  rupture_aspect_ratio := 1
  upper_seismogenic_depth := 0
  lower_seismogenic_depth := 10
  location := ⟨1, 2, 0⟩
  nodal_plane_distribution := [(1/3, ⟨0, 90, 0⟩)]
  hypocenter_distribution := [(1/4, 6)]

/-- Witness for C3 on the concrete source and nodal plane. -/
theorem rupture_dimensions_preserve_area_witness :
    (0 < witnessSource.get_median_area 5 (0 : ℝ) ∧
     0 < witnessSource.rupture_aspect_ratio ∧
     0 < (90 : ℝ) ∧ (90 : ℝ) ≤ 90 ∧
     witnessSource.upper_seismogenic_depth < witnessSource.lower_seismogenic_depth) ∧
    (_get_rupture_dimensions witnessSource 5 ⟨0, 90, 0⟩).1 *
      (_get_rupture_dimensions witnessSource 5 ⟨0, 90, 0⟩).2 =
      witnessSource.get_median_area 5 0 :=
  ⟨⟨by norm_num [witnessSource], by norm_num [witnessSource], by norm_num, le_refl _,
    by norm_num [witnessSource]⟩,
   rupture_dimensions_preserve_area witnessSource 5 ⟨0, 90, 0⟩
     (by norm_num [witnessSource]) (by norm_num [witnessSource]) (by norm_num)
     (le_refl _) (by norm_num [witnessSource])⟩

/-- The four cardinal azimuths derived from the strike
(src/openquake/hazardlib/source/point.py:256-262): `azimuth_right` is the
strike itself; each next one adds 90 degrees modulo 360. -/
noncomputable def azimuth_down_of (strike : ℝ) : ℝ := fmod (strike + 90) 360

/-- `azimuth_left = (azimuth_down + 90) % 360`. -/
noncomputable def azimuth_left_of (strike : ℝ) : ℝ := fmod (azimuth_down_of strike + 90) 360

/-- `azimuth_up = (azimuth_left + 90) % 360`. -/
noncomputable def azimuth_up_of (strike : ℝ) : ℝ := fmod (azimuth_left_of strike + 90) 360

/-- The vertical shift applied to the rupture center
(src/openquake/hazardlib/source/point.py:274-289): `vshift = upperDepth -
hypocenterDepth + halfHeight`; when negative, it is recomputed as
`lowerDepth - hypocenterDepth - halfHeight`, and reset to zero when that
second value is positive (the rupture already fits). -/
noncomputable def rupture_vshift (usd lsd hypocenter_depth hheight : ℝ) : ℝ :=
  let vshift := usd - hypocenter_depth + hheight
  if vshift < 0 then
    let vshift2 := lsd - hypocenter_depth - hheight
    if vshift2 > 0 then 0 else vshift2
  else vshift

/-- The rupture center (src/openquake/hazardlib/source/point.py:291-302): the
hypocenter itself when `vshift = 0`, otherwise the hypocenter moved by
horizontal distance `|vshift / tan(dip)|` and vertical increment `vshift`
along the up azimuth (`vshift < 0`) or the down azimuth (`vshift > 0`). -/
noncomputable def rupture_center_point (pointAt : PointAtFn) (hypocenter : Point)
    (rdip vshift azimuth_up azimuth_down : ℝ) : Point :=
  if vshift ≠ 0 then
    pointAt hypocenter |vshift / Real.tan rdip| vshift
      (if vshift < 0 then azimuth_up else azimuth_down)
  else hypocenter

/-- Corner construction from the (possibly shifted) rupture center
(src/openquake/hazardlib/source/point.py:304-333): right-edge midpoint,
bottom-right, top-right, top-left and bottom-left corners found by stepping
along the cardinal azimuths, and the `PlanarSurface` built from them. -/
noncomputable def _corners_from_center (src : PointSourceData) (pointAt : PointAtFn)
    (mag : ℝ) (nodal_plane : NodalPlane) (rupture_center : Point) : PlanarSurface :=
  let azimuth_right := nodal_plane.strike
  let azimuth_down := azimuth_down_of nodal_plane.strike
  let azimuth_left := azimuth_left_of nodal_plane.strike
  let azimuth_up := azimuth_up_of nodal_plane.strike
  let rdip := radians nodal_plane.dip
  let dims := _get_rupture_dimensions src mag nodal_plane
  let rup_length := dims.1
  let rup_width := dims.2
  let rup_proj_height := rup_width * Real.sin rdip
  let rup_proj_width := rup_width * Real.cos rdip
  let right_center := pointAt rupture_center (rup_length / 2) 0 azimuth_right
  let right_bottom := pointAt right_center (rup_proj_width / 2) (rup_proj_height / 2)
    azimuth_down
  let right_top := pointAt right_bottom rup_proj_width (-rup_proj_height) azimuth_up
  let left_top := pointAt right_top rup_length 0 azimuth_left
  let left_bottom := pointAt right_bottom rup_length 0 azimuth_left
  { mesh_spacing := src.rupture_mesh_spacing, strike := nodal_plane.strike,
    dip := nodal_plane.dip, top_left := left_top, top_right := right_top,
    bottom_right := right_bottom, bottom_left := left_bottom }

/-- Embedding of `PointSource._get_rupture_surface`
(src/openquake/hazardlib/source/point.py:237-333): compute the rupture
dimensions, derive the projected height, shift the center vertically so the
rupture fits inside the seismogenic layer, and build the four corners. -/
noncomputable def _get_rupture_surface (src : PointSourceData) (pointAt : PointAtFn)
    (mag : ℝ) (nodal_plane : NodalPlane) (hypocenter : Point) : PlanarSurface :=
  let rdip := radians nodal_plane.dip
  let dims := _get_rupture_dimensions src mag nodal_plane
  let rup_width := dims.2
  let rup_proj_height := rup_width * Real.sin rdip
  let hheight := rup_proj_height / 2
  let vshift := rupture_vshift src.upper_seismogenic_depth src.lower_seismogenic_depth
    hypocenter.depth hheight
  let rupture_center := rupture_center_point pointAt hypocenter rdip vshift
    (azimuth_up_of nodal_plane.strike) (azimuth_down_of nodal_plane.strike)
  _corners_from_center src pointAt mag nodal_plane rupture_center

/-- Helper: whenever `pointAt` adds the vertical increment to the origin
depth, the rupture center depth is the hypocenter depth plus the vertical
shift (also when the shift is zero and no move happens). -/
theorem rupture_center_point_depth (pointAt : PointAtFn)
    (hpa : ∀ (p : Point) (d v a : ℝ), (pointAt p d v a).depth = p.depth + v)
    (hyp : Point) (rdip vshift azu azd : ℝ) :
    (rupture_center_point pointAt hyp rdip vshift azu azd).depth = hyp.depth + vshift := by
  rw [rupture_center_point]
  split_ifs with h h2
  · rw [hpa]
  · rw [hpa]
  · rw [not_ne_iff] at h
    rw [h, add_zero]

/-- Helper: bounds on the shifted center depth.  With half-height `hh ≥ 0`,
full height `2·hh` at most the layer width, and the hypocenter inside the
layer, the center depth minus/plus `hh` stays inside
`[upperDepth, lowerDepth]`. -/
theorem vshift_center_bounds (usd lsd hd hh : ℝ)
    (hhh : 0 ≤ hh) (hhl : 2 * hh ≤ lsd - usd)
    (h1 : usd ≤ hd) (h2 : hd ≤ lsd) :
    usd ≤ hd + rupture_vshift usd lsd hd hh - hh ∧
    hd + rupture_vshift usd lsd hd hh + hh ≤ lsd := by
  rw [rupture_vshift]
  simp only []
  split_ifs with hv1 hv2
  · constructor <;> linarith
  · constructor <;> linarith
  · constructor <;> linarith

/-- C1: under the hypothesis that the external `point_at` primitive returns a
point whose depth is the origin depth plus the vertical increment, every
corner of the surface built by `_get_rupture_surface` has depth inside
`[upperSeismogenicDepth, lowerSeismogenicDepth]`, for any magnitude with
positive median area, aspect ratio `> 0`, dip in `(0, 90]`,
`0 ≤ upperDepth < lowerDepth` and hypocenter depth inside the layer. -/
theorem rupture_surface_corner_depths (src : PointSourceData) (pointAt : PointAtFn)
    (mag : ℝ) (np : NodalPlane) (hypocenter : Point)
    (hpa : ∀ (p : Point) (d v a : ℝ), (pointAt p d v a).depth = p.depth + v)
    (harea : 0 < src.get_median_area mag np.rake)
    (haspect : 0 < src.rupture_aspect_ratio)
    (hdip0 : 0 < np.dip) (hdip90 : np.dip ≤ 90)
    (husd : 0 ≤ src.upper_seismogenic_depth)
    (hdepths : src.upper_seismogenic_depth < src.lower_seismogenic_depth)
    (hhyp1 : src.upper_seismogenic_depth ≤ hypocenter.depth)
    (hhyp2 : hypocenter.depth ≤ src.lower_seismogenic_depth) :
    (src.upper_seismogenic_depth ≤
        (_get_rupture_surface src pointAt mag np hypocenter).top_left.depth ∧
      (_get_rupture_surface src pointAt mag np hypocenter).top_left.depth ≤
        src.lower_seismogenic_depth) ∧
    (src.upper_seismogenic_depth ≤
        (_get_rupture_surface src pointAt mag np hypocenter).top_right.depth ∧
      (_get_rupture_surface src pointAt mag np hypocenter).top_right.depth ≤
        src.lower_seismogenic_depth) ∧
    (src.upper_seismogenic_depth ≤
        (_get_rupture_surface src pointAt mag np hypocenter).bottom_right.depth ∧
      (_get_rupture_surface src pointAt mag np hypocenter).bottom_right.depth ≤
        src.lower_seismogenic_depth) ∧
    (src.upper_seismogenic_depth ≤
        (_get_rupture_surface src pointAt mag np hypocenter).bottom_left.depth ∧
      (_get_rupture_surface src pointAt mag np hypocenter).bottom_left.depth ≤
        src.lower_seismogenic_depth) := by
  obtain ⟨hprod, hwpos, hwsin, hlpos⟩ :=
    rupture_dimensions_facts src mag np harea haspect hdip0 hdip90 hdepths
  have hsin : 0 < Real.sin (radians np.dip) := sin_radians_dip_pos hdip0 hdip90
  have hhh : 0 ≤ (_get_rupture_dimensions src mag np).2 * Real.sin (radians np.dip) / 2 := by
    have := mul_pos hwpos hsin
    linarith
  have hhl : 2 * ((_get_rupture_dimensions src mag np).2 * Real.sin (radians np.dip) / 2) ≤
      src.lower_seismogenic_depth - src.upper_seismogenic_depth := by linarith
  obtain ⟨hlow, hhigh⟩ := vshift_center_bounds src.upper_seismogenic_depth
    src.lower_seismogenic_depth hypocenter.depth
    ((_get_rupture_dimensions src mag np).2 * Real.sin (radians np.dip) / 2)
    hhh hhl hhyp1 hhyp2
  simp only [_get_rupture_surface, _corners_from_center, hpa,
    rupture_center_point_depth pointAt hpa]
  refine ⟨⟨?_, ?_⟩, ⟨?_, ?_⟩, ⟨?_, ?_⟩, ⟨?_, ?_⟩⟩ <;> linarith

/-- Witness for C1 on the concrete source, a `point_at` that moves
longitude by the horizontal distance and depth by the vertical increment,
dip 90 and hypocenter depth 6. -/
theorem rupture_surface_corner_depths_witness :
    (∀ (p : Point) (d v a : ℝ),
      ((fun (q : Point) (dd vv _aa : ℝ) => Point.mk q.longitude q.latitude (q.depth + vv))
        p d v a).depth = p.depth + v) ∧
    (witnessSource.upper_seismogenic_depth ≤
        (_get_rupture_surface witnessSource
          (fun (q : Point) (dd vv _aa : ℝ) => Point.mk q.longitude q.latitude (q.depth + vv))
          5 ⟨0, 90, 0⟩ ⟨1, 2, 6⟩).top_left.depth ∧
      (_get_rupture_surface witnessSource
          (fun (q : Point) (dd vv _aa : ℝ) => Point.mk q.longitude q.latitude (q.depth + vv))
          5 ⟨0, 90, 0⟩ ⟨1, 2, 6⟩).top_left.depth ≤ witnessSource.lower_seismogenic_depth) :=
  ⟨fun _ _ _ _ => rfl,
   (rupture_surface_corner_depths witnessSource
      (fun (q : Point) (dd vv _aa : ℝ) => Point.mk q.longitude q.latitude (q.depth + vv))
      5 ⟨0, 90, 0⟩ ⟨1, 2, 6⟩ (fun _ _ _ _ => rfl)
      (by norm_num [witnessSource]) (by norm_num [witnessSource]) (by norm_num) (le_refl _)
      (by norm_num [witnessSource]) (by norm_num [witnessSource])
      (by norm_num [witnessSource]) (by norm_num [witnessSource])).1⟩

/-- The three-way vertical-shift policy exactly as worded in the spec (C2):
`vshift = upperDepth - hypocenter.depth + height/2`; if `vshift < 0` it is
recomputed as `lowerDepth - hypocenter.depth - height/2`, and if that
recomputed value is `> 0` then `vshift = 0`. -/
noncomputable def vshift_spec (upperDepth lowerDepth hypocenterDepth hh : ℝ) : ℝ :=
  let vshift := upperDepth - hypocenterDepth + hh
  if vshift < 0 then
    let vshift2 := lowerDepth - hypocenterDepth - hh
    if vshift2 > 0 then 0 else vshift2
  else vshift

/-- The center-placement policy exactly as worded in the spec (C2): when the
final `vshift` is zero the rupture center is the hypocenter itself; otherwise
the center is moved from the hypocenter by horizontal distance
`|vshift / tan(dip)|` with vertical increment `vshift`, along azimuth up if
`vshift < 0` and azimuth down if `vshift > 0`. -/
noncomputable def center_spec (pointAt : PointAtFn) (hypocenter : Point)
    (rdip vshift azimuth_up azimuth_down : ℝ) : Point :=
  if vshift = 0 then hypocenter
  else if vshift < 0 then pointAt hypocenter |vshift / Real.tan rdip| vshift azimuth_up
  else pointAt hypocenter |vshift / Real.tan rdip| vshift azimuth_down

/-- C2: `_get_rupture_surface` follows exactly the specified three-way
vertical-shift policy and center placement — the surface it builds is the one
built from the spec-worded center, the code's vertical shift coincides with
the spec's formula, and the code's center-moving step coincides with the
spec's case split. -/
theorem rupture_surface_center_policy (src : PointSourceData) (pointAt : PointAtFn)
    (mag : ℝ) (np : NodalPlane) (hypocenter : Point) :
    _get_rupture_surface src pointAt mag np hypocenter =
      _corners_from_center src pointAt mag np
        (center_spec pointAt hypocenter (radians np.dip)
          (vshift_spec src.upper_seismogenic_depth src.lower_seismogenic_depth
            hypocenter.depth
            ((_get_rupture_dimensions src mag np).2 * Real.sin (radians np.dip) / 2))
          (azimuth_up_of np.strike) (azimuth_down_of np.strike)) ∧
    (∀ usd lsd hd hh : ℝ, rupture_vshift usd lsd hd hh = vshift_spec usd lsd hd hh) ∧
    (∀ (hyp : Point) (rdip vshift azu azd : ℝ),
      rupture_center_point pointAt hyp rdip vshift azu azd =
        center_spec pointAt hyp rdip vshift azu azd) := by
  have hvs : ∀ usd lsd hd hh : ℝ, rupture_vshift usd lsd hd hh = vshift_spec usd lsd hd hh :=
    fun _ _ _ _ => rfl
  have hcs : ∀ (hyp : Point) (rdip vshift azu azd : ℝ),
      rupture_center_point pointAt hyp rdip vshift azu azd =
        center_spec pointAt hyp rdip vshift azu azd := by
    intro hyp rdip vshift azu azd
    rw [rupture_center_point, center_spec]
    by_cases h0 : vshift = 0
    · simp [h0]
    · by_cases hneg : vshift < 0 <;> simp [h0, hneg]
  refine ⟨?_, hvs, hcs⟩
  simp only [_get_rupture_surface]
  rw [hcs, hvs]

/-- The data of a `ProbabilisticRupture(mag, rake, tectonic_region_type,
hypocenter, surface, source_typology, occurrence_rate,
temporal_occurrence_model)` record.  The Python `source_typology` argument is
the class object `type(self)` and carries no data; it is omitted here.  The
temporal occurrence model is an opaque reference, embedded as a string. -/
structure RuptureRecord where
  mag : ℝ
  rake : ℝ
  tectonic_region_type : String
  hypocenter : Point
  surface : PlanarSurface
  occurrence_rate : ℝ
  temporal_occurrence_model : String

/-- Embedding of `PointSource._iter_ruptures_at_location`
(src/openquake/hazardlib/source/point.py:162-197): the triple-nested
generator over occurrence rates (outermost), nodal planes, and hypocenter
depths, yielding one record per combination, as a list.  The Python
`assert 0 < rate_scaling_factor` is a precondition, carried as a hypothesis
by the theorems below. -/
noncomputable def _iter_ruptures_at_location (src : PointSourceData) (pointAt : PointAtFn)
    (temporal_occurrence_model : String) (location : Point)
    (rate_scaling_factor : ℝ) : List RuptureRecord :=
  src.get_annual_occurrence_rates.flatMap fun mr =>
    src.nodal_plane_distribution.flatMap fun npr =>
      src.hypocenter_distribution.map fun hcr =>
        let hypocenter : Point := ⟨location.longitude, location.latitude, hcr.2⟩
        { mag := mr.1, rake := npr.2.rake,
          tectonic_region_type := src.tectonic_region_type,
          hypocenter := hypocenter,
          surface := _get_rupture_surface src pointAt mr.1 npr.2 hypocenter,
          occurrence_rate := mr.2 * npr.1 * hcr.1 * rate_scaling_factor,
          temporal_occurrence_model := temporal_occurrence_model }

/-- Helper: the length of a flat map whose pieces all have length `m`. -/
theorem flatMap_length_const {α β : Type} (l : List α) (f : α → List β) (m : ℕ)
    (hm : ∀ a ∈ l, (f a).length = m) : (l.flatMap f).length = l.length * m := by
  induction l with
  | nil => simp
  | cons a l ih =>
    simp only [List.flatMap_cons, List.length_append, List.length_cons]
    rw [hm a (List.mem_cons_self a l), ih (fun b hb => hm b (List.mem_cons_of_mem a hb))]
    ring

/-- Helper: indexing into a flat map whose pieces all have length `m`:
position `i * m + j` (with `j < m`) lands in the `i`-th piece at offset `j`. -/
theorem flatMap_getElem?_const {α β : Type} (l : List α) (f : α → List β) (m : ℕ)
    (hm : ∀ a ∈ l, (f a).length = m) (i j : ℕ) (hj : j < m) :
    (l.flatMap f)[i * m + j]? = (l[i]?).bind fun a => (f a)[j]? := by
  induction l generalizing i with
  | nil => simp
  | cons a l ih =>
    have hlen : (f a).length = m := hm a (List.mem_cons_self a l)
    cases i with
    | zero =>
      simp only [List.flatMap_cons, Nat.zero_mul, Nat.zero_add]
      rw [List.getElem?_append_left (by rw [hlen]; exact hj)]
      simp
    | succ i =>
      simp only [List.flatMap_cons]
      rw [List.getElem?_append_right (by rw [hlen]; nlinarith [Nat.zero_le (i * m + j)])]
      rw [hlen]
      have hidx : (i + 1) * m + j - m = i * m + j := by
        have : (i + 1) * m + j = m + (i * m + j) := by ring
        omega
      rw [hidx]
      have hrec := ih (fun b hb => hm b (List.mem_cons_of_mem a hb)) i
      rw [hrec]
      simp

/-- C7: the enumerator produces exactly
`|rates| × |nodalPlanes| × |hypocenterDepths|` records, ordered with the
magnitude bins outermost, then nodal planes, then hypocenter depths, each in
table order; the record for table indices `(i, j, k)` sits at flat position
`(i·|nodalPlanes| + j)·|hypocenterDepths| + k`, carries occurrence rate
`magRate · nodalPlaneProb · hypocenterProb · rateScalingFactor`, and its
hypocenter is the caller's longitude/latitude with the sampled depth. -/
theorem iter_ruptures_enumeration (src : PointSourceData) (pointAt : PointAtFn)
    (tom : String) (location : Point) (rate_scaling_factor : ℝ)
    (hrsf : 0 < rate_scaling_factor) :
    (_iter_ruptures_at_location src pointAt tom location rate_scaling_factor).length =
      src.get_annual_occurrence_rates.length * src.nodal_plane_distribution.length *
        src.hypocenter_distribution.length ∧
    ∀ (i j k : ℕ) (mr : ℝ × ℝ) (npr : ℝ × NodalPlane) (hcr : ℝ × ℝ),
      src.get_annual_occurrence_rates[i]? = some mr →
      src.nodal_plane_distribution[j]? = some npr →
      src.hypocenter_distribution[k]? = some hcr →
      (_iter_ruptures_at_location src pointAt tom location rate_scaling_factor)[
          (i * src.nodal_plane_distribution.length + j) *
            src.hypocenter_distribution.length + k]? =
        some { mag := mr.1, rake := npr.2.rake,
               tectonic_region_type := src.tectonic_region_type,
               hypocenter := ⟨location.longitude, location.latitude, hcr.2⟩,
               surface := _get_rupture_surface src pointAt mr.1 npr.2
                 ⟨location.longitude, location.latitude, hcr.2⟩,
               occurrence_rate := mr.2 * npr.1 * hcr.1 * rate_scaling_factor,
               temporal_occurrence_model := tom } := by
  have hinner : ∀ mr ∈ src.get_annual_occurrence_rates,
      ((src.nodal_plane_distribution.flatMap fun npr =>
        src.hypocenter_distribution.map fun hcr =>
          let hypocenter : Point := ⟨location.longitude, location.latitude, hcr.2⟩
          ({ mag := mr.1, rake := npr.2.rake,
             tectonic_region_type := src.tectonic_region_type,
             hypocenter := hypocenter,
             surface := _get_rupture_surface src pointAt mr.1 npr.2 hypocenter,
             occurrence_rate := mr.2 * npr.1 * hcr.1 * rate_scaling_factor,
             temporal_occurrence_model := tom } : RuptureRecord))).length =
      src.nodal_plane_distribution.length * src.hypocenter_distribution.length := by
    intro mr _
    exact flatMap_length_const _ _ _ (fun npr _ => List.length_map _ _)
  constructor
  · rw [_iter_ruptures_at_location,
      flatMap_length_const _ _ _ hinner, mul_assoc]
  · intro i j k mr npr hcr hmr hnpr hhcr
    have hk : k < src.hypocenter_distribution.length := by
      by_contra hc
      push_neg at hc
      rw [List.getElem?_eq_none hc] at hhcr
      exact Option.noConfusion hhcr
    have hjk : j * src.hypocenter_distribution.length + k <
        src.nodal_plane_distribution.length * src.hypocenter_distribution.length := by
      have hjlt : j < src.nodal_plane_distribution.length := by
        by_contra hc
        push_neg at hc
        rw [List.getElem?_eq_none hc] at hnpr
        exact Option.noConfusion hnpr
      calc j * src.hypocenter_distribution.length + k
          < j * src.hypocenter_distribution.length + src.hypocenter_distribution.length :=
            Nat.add_lt_add_left hk _
        _ = (j + 1) * src.hypocenter_distribution.length := by ring
        _ ≤ src.nodal_plane_distribution.length * src.hypocenter_distribution.length :=
            Nat.mul_le_mul_right _ hjlt
    have hidx : (i * src.nodal_plane_distribution.length + j) *
        src.hypocenter_distribution.length + k =
        i * (src.nodal_plane_distribution.length * src.hypocenter_distribution.length) +
          (j * src.hypocenter_distribution.length + k) := by ring
    rw [_iter_ruptures_at_location, hidx,
      flatMap_getElem?_const _ _ _ hinner _ _ hjk, hmr]
    simp only [Option.some_bind]
    rw [flatMap_getElem?_const _ _ _ (fun npr _ => List.length_map _ _) _ _ hk, hnpr]
    simp only [Option.some_bind]
    rw [List.getElem?_map, hhcr]
    rfl

/-- Witness for C7 on the concrete source with one magnitude bin, one nodal
plane and one hypocenter depth, and rate scaling factor 2. -/
theorem iter_ruptures_enumeration_witness :
    (_iter_ruptures_at_location witnessSource
        (fun (q : Point) (dd vv _aa : ℝ) => Point.mk q.longitude q.latitude (q.depth + vv))
        "tom" ⟨1, 2, 0⟩ 2).length =
      witnessSource.get_annual_occurrence_rates.length *
        witnessSource.nodal_plane_distribution.length *
        witnessSource.hypocenter_distribution.length :=
  (iter_ruptures_enumeration witnessSource
    (fun (q : Point) (dd vv _aa : ℝ) => Point.mk q.longitude q.latitude (q.depth + vv))
    "tom" ⟨1, 2, 0⟩ 2 (by norm_num)).1

/-! ## `openquake.hazardlib.source.complex_fault._float_ruptures`
(FaultMeshFloater; only its test, src/tests/source/complex_fault_test.py, is
among the sources) -/

/-- Running cumulative sums of a list of rationals. -/
def cumsum (l : List ℚ) : List ℚ := (l.scanl (· + ·) 0).drop 1

/-- The span count whose cumulative value best matches `target`, at least
`lb ≥ 1` cells: the smallest span whose cumulative sum reaches `target`,
rounded down by one when the previous span's cumulative sum is strictly
closer to `target`; all available cells when `target` is never reached. -/
def spanClosest (cum : List ℚ) (target : ℚ) (lb : ℕ) : ℕ :=
  match (cum.drop (lb - 1)).findIdx? (fun x => decide (target ≤ x)) with
  | none => cum.length
  | some 0 => lb
  | some (i + 1) =>
    let k := lb + i + 1
    let prev := cum.getD (k - 2) 0
    let curr := cum.getD (k - 1) 0
    if target - prev < curr - target then k - 1 else k

/-- Modelled from the spec: the implementation of `_float_ruptures` (module
`openquake.hazardlib.source.complex_fault`, component FaultMeshFloater of
spec section 4.4) is not among the sources — only its unit test is.  This
definition follows the spec's algorithm intent with the tie-breaks that spec
section 9 pins to the test scenarios: per column start, the column span is
the smallest one covering the target length (all remaining columns when even
the full row falls short), adjusted to the span whose full-column cumulative
area is closest to the target area; per position, the row span is the one
whose cumulative window area is closest to the target area, with all
remaining rows when the target is unreachable; the window floats across
every column start whose remaining grid area still fits the rupture and
every row start that keeps the baseline window shape inside the grid; rows
and columns index mesh nodes, so a span of `n` cells yields a slice bound of
`n + 1`.  Returns `((row_start, row_stop), (col_start, col_stop))` slice
pairs in row-major order. -/
def _float_ruptures (rupture_area rupture_length : ℚ)
    (cell_area cell_length : List (List ℚ)) : List ((ℕ × ℕ) × (ℕ × ℕ)) :=
  let nrows := cell_area.length
  let ncols := (cell_area.headD []).length
  if nrows = 0 ∨ ncols = 0 then []
  else
    let col_totals := (List.range ncols).map
      (fun j => (cell_area.map (fun row => row.getD j 0)).sum)
    let remaining := fun c0 => (col_totals.drop c0).sum
    let cstarts := 0 :: (List.range' 1 (ncols - 1)).takeWhile
      (fun c0 => decide (rupture_area ≤ remaining c0))
    let ncFor := fun c0 =>
      let lenCum := cumsum ((cell_length.headD []).drop c0)
      let ncLen := match lenCum.findIdx? (fun x => decide (rupture_length ≤ x)) with
        | some i => i + 1
        | none => ncols - c0
      spanClosest (cumsum (col_totals.drop c0)) rupture_area (max ncLen 1)
    let nrFor := fun r0 c0 nc =>
      spanClosest (cumsum ((cell_area.drop r0).map
        (fun row => ((row.drop c0).take nc).sum))) rupture_area 1
    let base_nr := nrFor 0 0 (ncFor 0)
    (List.range (nrows - base_nr + 1)).flatMap fun r0 =>
      cstarts.map fun c0 =>
        let nc := ncFor c0
        let nr := nrFor r0 c0 nc
        ((r0, r0 + nr + 1), (c0, c0 + nc + 1))

/-- C8: on the uniform 2×3 grid with `cell_length = cell_area = 1`
everywhere, target area 3.1 and target length 1.0 give exactly the two
placements `(rows 0:3, cols 0:3)` and `(rows 0:3, cols 1:4)` in that order
(one window shape slid by one column), and target area 4.2 with length 1.0
gives exactly the single placement `(rows 0:3, cols 0:3)`. -/
theorem float_ruptures_uniform_grid :
    _float_ruptures (31 / 10) 1 [[1, 1, 1], [1, 1, 1]] [[1, 1, 1], [1, 1, 1]] =
      [((0, 3), (0, 3)), ((0, 3), (1, 4))] ∧
    _float_ruptures (42 / 10) 1 [[1, 1, 1], [1, 1, 1]] [[1, 1, 1], [1, 1, 1]] =
      [((0, 3), (0, 3))] := by
  constructor <;> with_unfolding_all rfl

end EqGPM
